import Mathlib

/-!
A shallow embedding of the `python_digest` library
(`src/python_digest/__init__.py`) in Lean 4, together with theorems
settling the frozen claims about its specification.

Modelling conventions:
  * Python strings become Lean `String`s (sequences of characters); the
    UTF-8 encoding step before hashing is dropped because it is injective
    and both sides of every hash call are encoded the same way.
  * The external hash primitives (`hashlib.md5`, `hashlib.sha256`, ...)
    are collaborators, not part of the repository: they are modelled by a
    `HashEnv` record of abstract functions `String → String` together
    with the boolean availability flag of the optional SHA-512/256
    primitive.
  * Randomness (`random.choice` over the hex alphabet) is modelled by an
    explicit generator argument `r : Nat → Fin 16` selecting characters
    of the alphabet `0123456789ABCDEF`.
  * Python functions that `raise` are embedded as `Except String α`;
    functions that return `None` on failure are embedded as `Option α`.
  * `python_digest.utils.parse_parts` / `format_parts` are imported by
    the source file but their code is not part of the repository files;
    they are modelled from the spec (section 4.1), see their doc
    comments.
-/

/-! ## Basic string helpers (Python primitives used by the source) -/

/-- The hex alphabet `'0123456789ABCDEF'` that `random.choice` draws salt and
client-nonce characters from (source lines 141 and 165). -/
def hexUpperChars : List Char :=
  "0123456789ABCDEF".toList

/-- `''.join([random.choice('0123456789ABCDEF') for x in range(n)])`: a string
of `n` characters drawn from the hex alphabet by the random generator `r`. -/
def randomHex (n : Nat) (r : Nat → Fin 16) : String :=
  String.mk ((List.range n).map (fun i => hexUpperChars.getD (r i).val '0'))

/-- Python `str.split(sep, maxsplit)` on a list of characters: `cur` is the
(reversed) accumulator of the current field. -/
def pySplitAux (sep : Char) : List Char → Nat → List Char → List String
  | [], _, cur => [String.mk cur.reverse]
  | c :: rest, maxsplit, cur =>
    if c = sep ∧ maxsplit ≠ 0 then
      String.mk cur.reverse :: pySplitAux sep rest (maxsplit - 1) []
    else
      pySplitAux sep rest maxsplit (c :: cur)

/-- Python `s.split(sep, maxsplit)`. -/
def pySplit (s : String) (sep : Char) (maxsplit : Nat) : List String :=
  pySplitAux sep s.data maxsplit []

/-- Python `str.lower()` (ASCII case folding, which is all the source compares
against: the literal `'digest '` and `'true'`). -/
def pyLower (s : String) : String :=
  String.mk (s.data.map Char.toLower)

/-- `'%08x' % n`: lowercase hex digits of `n`, zero-padded on the left to a
minimum width of 8. -/
def hex8 (n : Nat) : String :=
  let ds := Nat.toDigits 16 n
  String.mk (List.replicate (8 - ds.length) '0' ++ ds)

/-- The characters accepted by the `nc` check on source line 224:
`'0123456789abcdefABCDEF'`. -/
def isHexDigitChar (c : Char) : Bool :=
  c ∈ "0123456789abcdefABCDEF".toList

/-- The numeric value of one hex digit. -/
def hexDigitVal (c : Char) : Nat :=
  if '0' ≤ c ∧ c ≤ '9' then c.toNat - '0'.toNat
  else if 'a' ≤ c ∧ c ≤ 'f' then c.toNat - 'a'.toNat + 10
  else if 'A' ≤ c ∧ c ≤ 'F' then c.toNat - 'A'.toNat + 10
  else 0

/-- Python `int(s, 16)` on a non-empty all-hex-digit string. -/
def hexToNat (s : String) : Nat :=
  s.data.foldl (fun acc c => 16 * acc + hexDigitVal c) 0

/-! ## The hash-function collaborators -/

/-- The external hash primitives consumed by the library (spec section 6):
each maps the hashed text to its hex digest. `sha512_256_available` is the
startup probe `'sha512_256' in hashlib.algorithms_available` from source
line 27. -/
structure HashEnv where
  md5 : String → String
  sha256 : String → String
  sha512 : String → String
  sha512_256 : String → String
  sha512_256_available : Bool

/-- `_AVAILABLE_HASH_FUNCS` (source lines 26-28). -/
def availableHashFuncs (env : HashEnv) : List String :=
  ["MD5", "SHA-256", "SHA-512"] ++
    (if env.sha512_256_available then ["SHA-512-256"] else [])

/-- `get_hash_func` (source lines 34-46): resolves an algorithm name,
silently defaulting to MD5 for any unrecognized name. -/
def get_hash_func (env : HashEnv) (algorithm : String) : String → String :=
  if algorithm = "SHA-256" then env.sha256
  else if algorithm = "SHA-512-256" then env.sha512_256
  else if algorithm = "SHA-512" then env.sha512
  else env.md5

/-! ## Structured records -/

/-- The `DigestResponse` namedtuple (source lines 15-21); after parsing, the
`nc` field holds the integer `int(parts['nc'], 16)` (source line 226). -/
structure DigestResponse where
  username : String
  realm : String
  nonce : String
  uri : String
  response : String
  algorithm : String
  opaque_val : String
  qop : String
  nc : Nat
  cnonce : String
deriving DecidableEq, Repr

/-- The `DigestChallenge` namedtuple (source lines 23-24); after parsing, the
`stale` field holds the boolean from source line 276. -/
structure DigestChallenge where
  realm : String
  nonce : String
  stale : Bool
  algorithm : String
  opaque_val : String
  qop : String
deriving DecidableEq, Repr

/-- `_REQUIRED_DIGEST_RESPONSE_PARTS` (source lines 15-17). -/
def REQUIRED_RESPONSE_PARTS : List String :=
  ["username", "realm", "nonce", "uri", "response", "algorithm", "opaque", "qop", "nc", "cnonce"]

/-- `_REQUIRED_DIGEST_CHALLENGE_PARTS` (source line 23). -/
def REQUIRED_CHALLENGE_PARTS : List String :=
  ["realm", "nonce", "stale", "algorithm", "opaque", "qop"]

/-! ## The nonce service -/

/-- `calculate_nonce` (source lines 134-146). The salt argument is optional
and a supplied empty string is falsy in Python, so both `none` and `some ""`
are replaced by the freshly generated 4-character hex salt, here passed in as
`freshSalt` (the caller instantiates it with `randomHex 4 r`). The signature
always uses the fixed MD5 primitive. -/
def calculate_nonce (md5 : String → String) (timestamp secret : String)
    (salt : Option String) (freshSalt : String) : String :=
  let salt := match salt with
    | none => freshSalt
    | some s => if s = "" then freshSalt else s
  timestamp ++ ":" ++ salt ++ ":" ++
    md5 (timestamp ++ ":" ++ salt ++ ":" ++ secret)

/-- `validate_nonce` (source lines 48-64): split at the first two colons,
recompute with the extracted timestamp and salt, compare byte-for-byte. -/
def validate_nonce (md5 : String → String) (nonce secret : String)
    (freshSalt : String) : Bool :=
  let comps := pySplit nonce ':' 2
  if comps.length ≠ 3 then false
  else
    let timestamp := comps.getD 0 ""
    let salt := comps.getD 1 ""
    let calculated := calculate_nonce md5 timestamp secret (some salt) freshSalt
    nonce = calculated

/-- `get_nonce_timestamp` (source lines 120-132). Python's runtime float
conversion `float(...)` (returning `None` via `ValueError` on an invalid
decimal string) is the collaborator `pyfloat`. -/
def get_nonce_timestamp {F : Type} (pyfloat : String → Option F)
    (nonce : String) : Option F :=
  let comps := pySplit nonce ':' 2
  if comps.length ≠ 3 then none
  else pyfloat (comps.getD 0 "")

/-! ## The digest computer -/

/-- `calculate_partial_digest` (source lines 66-74):
`hash(username ":" realm ":" password)` under the resolved algorithm. -/
def calculate_partial_digest (env : HashEnv)
    (username realm password : String) (algorithm : String) : String :=
  let hash_func := get_hash_func env algorithm
  hash_func (username ++ ":" ++ realm ++ ":" ++ password)

/-- Python truthiness of an optional string argument: `None` and `''` are
falsy. -/
def pyTruthyS : Option String → Bool
  | none => false
  | some s => s ≠ ""

/-- Python truthiness of an optional integer argument: `None` and `0` are
falsy. -/
def pyTruthyN : Option Nat → Bool
  | none => false
  | some n => n ≠ 0

/-- The shared formula tail of `calculate_request_digest`
(source lines 112-118), after the argument juggling has produced concrete
`uri`, `nonce`, `nonce_count`, `client_nonce` and `algorithm` values. -/
def request_digest_formula (env : HashEnv) (method partial_digest : String)
    (uri nonce : String) (nonce_count : Nat) (client_nonce algorithm : String) :
    String :=
  let algorithm := if algorithm = "" then "MD5" else algorithm
  let hash_func := get_hash_func env algorithm
  let ha2 := hash_func (method ++ ":" ++ uri)
  let data := nonce ++ ":" ++ hex8 nonce_count ++ ":" ++ client_nonce ++ ":" ++ "auth" ++ ":" ++ ha2
  hash_func (partial_digest ++ ":" ++ data)

/-- `calculate_request_digest` (source lines 92-118). A `DigestResponse` is
always truthy in Python (it is a non-empty tuple), so `digest_response` is
truthy exactly when it is present; the individual parameters are tested with
Python truthiness (`nonce_count != None` in the second check). Raising is
modelled by `Except.error`. -/
def calculate_request_digest (env : HashEnv) (method partial_digest : String)
    (digest_response : Option DigestResponse)
    (uri nonce : Option String) (nonce_count : Option Nat)
    (client_nonce algorithm : Option String) : Except String String :=
  match digest_response with
  | some dr =>
    if pyTruthyS uri ∨ pyTruthyS nonce ∨ pyTruthyN nonce_count ∨
        pyTruthyS client_nonce ∨ pyTruthyS algorithm then
      Except.error "Both digest_response and one or more individual parameters were sent."
    else
      Except.ok (request_digest_formula env method partial_digest
        dr.uri dr.nonce dr.nc dr.cnonce dr.algorithm)
  | none =>
    if ¬ (pyTruthyS uri ∧ pyTruthyS nonce ∧ nonce_count ≠ none ∧ pyTruthyS client_nonce) then
      Except.error "Neither digest_response nor all individual parameters were sent."
    else
      Except.ok (request_digest_formula env method partial_digest
        (uri.getD "") (nonce.getD "") (nonce_count.getD 0)
        (client_nonce.getD "") (algorithm.getD ""))

/-! ## The header grammar codec

`python_digest.utils.parse_parts` and `format_parts` are imported on source
line 13 but `utils.py` is not among the repository files; the definitions in
this section are modelled from the spec, section 4.1. -/

/-- Modelled from the spec: the quote-tracking state of the top-level comma
splitter. `0` = outside a quoted-string, `1` = inside a quoted-string, `2` =
inside a quoted-string right after a backslash (the next character is
escaped). -/
def stepState (st : Nat) (c : Char) : Nat :=
  if st = 0 then (if c = '"' then 1 else 0)
  else if st = 1 then (if c = '\\' then 2 else if c = '"' then 0 else 1)
  else 1

/-- Modelled from the spec (`python_digest/utils.py` is missing from the
repository files): splitting a parameter list "on top-level commas (commas
inside a quoted value are NOT split on)", with backslash-escaping of `"` and
`\` inside quoted-strings. `cur` accumulates the current segment reversed. -/
def splitSegsAux : List Char → Nat → List Char → List (List Char)
  | [], _, cur => [cur.reverse]
  | c :: rest, st, cur =>
    if c = ',' ∧ st = 0 then cur.reverse :: splitSegsAux rest 0 []
    else splitSegsAux rest (stepState st c) (c :: cur)

/-- Whitespace trimming of both ends of a segment (Python `str.strip()`). -/
def trimChars (cs : List Char) : List Char :=
  ((cs.dropWhile Char.isWhitespace).reverse.dropWhile Char.isWhitespace).reverse

/-- Split a segment at its first `=`: `some (key, value)` or `none` when the
segment has no `=`. -/
def splitFirstEq : List Char → Option (List Char × List Char)
  | [] => none
  | c :: rest =>
    if c = '=' then some ([], rest)
    else (splitFirstEq rest).map (fun p => (c :: p.1, p.2))

/-- Modelled from the spec: the body of a quoted-string after its opening
quote. A backslash escapes the next character; an unescaped `"` must be the
final character; a missing closing quote or text after it is malformed. -/
def unquoteValue : List Char → Option (List Char)
  | [] => none
  | c :: rest =>
    if c = '\\' then
      match rest with
      | [] => none
      | d :: rest2 => (unquoteValue rest2).map (fun v => d :: v)
    else if c = '"' then
      if rest = [] then some [] else none
    else (unquoteValue rest).map (fun v => c :: v)

/-- Modelled from the spec: one segment `token "=" (quoted-string | token)`,
leading/trailing whitespace trimmed; `none` on a missing `=`, an empty key or
malformed quoting. -/
def parseSegment (seg : List Char) : Option (String × String) :=
  match splitFirstEq (trimChars seg) with
  | none => none
  | some (rawKey, rawVal) =>
    let key := trimChars rawKey
    let val := trimChars rawVal
    if key = [] then none
    else
      match val with
      | '"' :: body =>
        match unquoteValue body with
        | none => none
        | some v => some (String.mk key, String.mk v)
      | _ => some (String.mk key, String.mk val)

/-- All segments, all-or-nothing: one unparseable segment fails the whole
parse. -/
def parseSegments : List (List Char) → Option (List (String × String))
  | [] => some []
  | seg :: rest =>
    match parseSegment seg, parseSegments rest with
    | some kv, some kvs => some (kv :: kvs)
    | _, _ => none

/-- Store `(k, v)` in an association list, overwriting an existing binding of
`k` (Python `dict` assignment). -/
def setPart (ps : List (String × String)) (k v : String) : List (String × String) :=
  if ps.any (fun p => p.1 = k) then
    ps.map (fun p => if p.1 = k then (k, v) else p)
  else ps ++ [(k, v)]

/-- Modelled from the spec: `parseParts(input, defaults) ->
mapping<string,string> | failure`. The defaults are merged at lower
precedence than parsed values; parsed pairs are stored in order, so a
repeated key keeps its last value. -/
def parse_parts (s : String) (defaults : List (String × String)) :
    Option (List (String × String)) :=
  (parseSegments (splitSegsAux s.data 0 [])).map
    (fun pairs => pairs.foldl (fun acc kv => setPart acc kv.1 kv.2) defaults)

/-- Modelled from the spec: the textual parameters `realm, nonce, opaque,
username, uri, response, cnonce` are quoted; `algorithm, qop, nc, stale` are
bare tokens. -/
def isQuotedKey (k : String) : Bool :=
  k ∈ ["realm", "nonce", "opaque", "username", "uri", "response", "cnonce"]

/-- Escape `"` and `\` with a backslash. -/
def escapeValue : List Char → List Char
  | [] => []
  | c :: rest =>
    if c = '"' ∨ c = '\\' then '\\' :: c :: escapeValue rest
    else c :: escapeValue rest

/-- One formatted parameter, quoted or bare according to its key. -/
def format_part (kv : String × String) : String :=
  if isQuotedKey kv.1 then
    kv.1 ++ "=\"" ++ String.mk (escapeValue kv.2.data) ++ "\""
  else kv.1 ++ "=" ++ kv.2

/-- Modelled from the spec: `formatParts(mapping) -> string`, the parameters
joined by a comma and a space. -/
def format_parts : List (String × String) → String
  | [] => ""
  | [kv] => format_part kv
  | kv :: rest => format_part kv ++ ", " ++ format_parts rest

/-! ## Challenge building and header parsing -/

/-- `build_digest_challenge` (source lines 76-90): `'Digest %s' %
format_parts(realm=..., qop='auth', nonce=..., opaque=..., algorithm=...,
stale=...)`, the nonce freshly salted by the random generator `r`. -/
def build_digest_challenge (env : HashEnv) (timestamp secret realm opaque_v : String)
    (stale : Bool) (algorithm : String) (r : Nat → Fin 16) : String :=
  let nonce := calculate_nonce env.md5 timestamp secret none (randomHex 4 r)
  "Digest " ++ format_parts
    [("realm", realm), ("qop", "auth"), ("nonce", nonce), ("opaque", opaque_v),
     ("algorithm", algorithm), ("stale", if stale then "true" else "false")]

/-- `_check_required_parts` (source lines 204-209) on a successfully parsed
mapping: every required key is present. -/
def check_required_parts (parts : List (String × String)) (required : List String) : Bool :=
  required.all (fun k => (parts.lookup k).isSome)

/-- `is_digest_credential` (source lines 239-244):
`authorization_header[:7].lower() == 'digest '`. -/
def is_digest_credential (authorization_header : String) : Bool :=
  pyLower (String.mk (authorization_header.data.take 7)) = "digest "

/-- `is_digest_challenge` (source lines 256-261): same test as
`is_digest_credential`. -/
def is_digest_challenge (authentication_header : String) : Bool :=
  pyLower (String.mk (authentication_header.data.take 7)) = "digest "

/-- `parse_digest_response` (source lines 212-237). -/
def parse_digest_response (env : HashEnv) (digest_response_string : String) :
    Option DigestResponse :=
  match parse_parts digest_response_string [("algorithm", "MD5")] with
  | none => none
  | some parts =>
    if ¬ check_required_parts parts REQUIRED_RESPONSE_PARTS then none
    else
      let ncStr := (parts.lookup "nc").getD ""
      if ncStr = "" ∨ ¬ ncStr.data.all isHexDigitChar then none
      else
        let dr : DigestResponse :=
          { username := (parts.lookup "username").getD ""
            realm := (parts.lookup "realm").getD ""
            nonce := (parts.lookup "nonce").getD ""
            uri := (parts.lookup "uri").getD ""
            response := (parts.lookup "response").getD ""
            algorithm := (parts.lookup "algorithm").getD ""
            opaque_val := (parts.lookup "opaque").getD ""
            qop := (parts.lookup "qop").getD ""
            nc := hexToNat ncStr
            cnonce := (parts.lookup "cnonce").getD "" }
        if ¬ (dr.algorithm ∈ availableHashFuncs env) then none
        else if dr.qop ≠ "auth" then none
        else some dr

/-- `parse_digest_credentials` (source lines 246-254). -/
def parse_digest_credentials (env : HashEnv) (authorization_header : String) :
    Option DigestResponse :=
  if ¬ is_digest_credential authorization_header then none
  else parse_digest_response env (String.mk (authorization_header.data.drop 7))

/-- `parse_digest_challenge` (source lines 263-287). -/
def parse_digest_challenge (env : HashEnv) (authentication_header : String) :
    Option DigestChallenge :=
  if ¬ is_digest_challenge authentication_header then none
  else
    match parse_parts (String.mk (authentication_header.data.drop 7))
        [("algorithm", "MD5"), ("stale", "false")] with
    | none => none
    | some parts =>
      if ¬ check_required_parts parts REQUIRED_CHALLENGE_PARTS then none
      else
        let dc : DigestChallenge :=
          { realm := (parts.lookup "realm").getD ""
            nonce := (parts.lookup "nonce").getD ""
            stale := pyLower ((parts.lookup "stale").getD "") = "true"
            algorithm := (parts.lookup "algorithm").getD ""
            opaque_val := (parts.lookup "opaque").getD ""
            qop := (parts.lookup "qop").getD "" }
        if ¬ (dc.algorithm ∈ availableHashFuncs env) then none
        else if dc.qop ≠ "auth" then none
        else some dc

/-! ## The authorization request builder -/

/-- The `digest_challenge` argument of `build_authorization_request` may be a
raw challenge header string or an already-parsed `DigestChallenge` record
(source lines 171-183). -/
inductive ChallengeArg where
  | header (s : String)
  | record (c : DigestChallenge)

/-- Python truthiness of the optional `digest_challenge` argument: `None` and
an empty header string are falsy, a `DigestChallenge` namedtuple is always
truthy. -/
def pyTruthyChallenge : Option ChallengeArg → Bool
  | none => false
  | some (ChallengeArg.header s) => s ≠ ""
  | some (ChallengeArg.record _) => true

/-- `build_authorization_request` (source lines 148-202). Raising is
modelled by `Except.error`; the fresh random client nonce is
`randomHex 32 rc`. -/
def build_authorization_request (env : HashEnv) (username method uri : String)
    (nonce_count : Nat) (digest_challenge : Option ChallengeArg)
    (realm nonce opaque_a password request_digest client_nonce algorithm : Option String)
    (rc : Nat → Fin 16) : Except String String :=
  let client_nonce : String := match client_nonce with
    | none => randomHex 32 rc
    | some c => if c = "" then randomHex 32 rc else c
  if pyTruthyChallenge digest_challenge ∧
      (pyTruthyS realm ∨ pyTruthyS nonce ∨ pyTruthyS opaque_a ∨ pyTruthyS algorithm) then
    Except.error
      "Both digest_challenge and one or more of realm, nonce, opaque and algorithmwere sent."
  else
    let resolved : Except String (String × String × String × String) :=
      if pyTruthyChallenge digest_challenge then
        match digest_challenge with
        | some (ChallengeArg.record c) =>
          Except.ok (c.realm, c.nonce, c.opaque_val, c.algorithm)
        | some (ChallengeArg.header s) =>
          match parse_digest_challenge env s with
          | none =>
            Except.error ("The provided digest challenge header could not be parsed: " ++ s)
          | some c => Except.ok (c.realm, c.nonce, c.opaque_val, c.algorithm)
        | none => Except.error "unreachable"
      else if ¬ (pyTruthyS realm ∧ pyTruthyS nonce ∧ pyTruthyS opaque_a) then
        Except.error "Either digest_challenge or realm, nonce, and opaque must be sent."
      else
        Except.ok (realm.getD "", nonce.getD "", opaque_a.getD "", algorithm.getD "")
    match resolved with
    | Except.error e => Except.error e
    | Except.ok (realm2, nonce2, opaque2, alg0) =>
      let algorithm2 := if alg0 = "" then "MD5" else alg0
      if pyTruthyS password ∧ pyTruthyS request_digest then
        Except.error "Both password and calculated request_digest were sent."
      else
        let rd : Except String String :=
          if pyTruthyS request_digest then Except.ok (request_digest.getD "")
          else if ¬ pyTruthyS password then
            Except.error "Either password or calculated request_digest must be provided."
          else
            let partial_digest :=
              calculate_partial_digest env username realm2 (password.getD "") algorithm2
            calculate_request_digest env method partial_digest none
              (some uri) (some nonce2) (some nonce_count) (some client_nonce) (some algorithm2)
        match rd with
        | Except.error e => Except.error e
        | Except.ok request_digest2 =>
          Except.ok ("Digest " ++ format_parts
            [("username", username), ("realm", realm2), ("nonce", nonce2), ("uri", uri),
             ("response", request_digest2), ("algorithm", algorithm2), ("opaque", opaque2),
             ("qop", "auth"), ("nc", hex8 nonce_count), ("cnonce", client_nonce)])

/-! ## Concrete instances used by witnesses and counterexamples -/

/-- A concrete hash environment standing in for the external primitives in
witness evaluations: each "hash" tags its input, and the SHA-512/256
primitive counts as available. -/
def envW : HashEnv where
  md5 := fun s => "md5." ++ s
  sha256 := fun s => "sha256." ++ s
  sha512 := fun s => "sha512." ++ s
  sha512_256 := fun s => "sha512256." ++ s
  sha512_256_available := true

/-- A concrete random generator: always picks the alphabet character at
index 10 (the letter `A`). -/
def rW : Nat → Fin 16 := fun _ => (10 : Fin 16)

/-- A concrete parsed credential record. -/
def drW : DigestResponse where
  username := "Mufasa"
  realm := "testrealm@host.com"
  nonce := "dcd98b7102dd2f0e8b11d0f600bfb0c093"
  uri := "/dir/index.html"
  response := "r"
  algorithm := "MD5"
  opaque_val := "opq"
  qop := "auth"
  nc := 1
  cnonce := "0a4f113b"

/-- The splitter state after scanning a list of characters. -/
def scanState (st : Nat) (cs : List Char) : Nat :=
  cs.foldl stepState st

/-- Whether scanning `cs` from state `st` meets a top-level comma (a comma in
state `0`), i.e. whether `splitSegsAux` would split inside `cs`. -/
def hasTopComma : Nat → List Char → Bool
  | _, [] => false
  | st, c :: cs => (decide (c = ',' ∧ st = 0)) || hasTopComma (stepState st c) cs

/-- Re-joining the fields of a `split` with the separator. -/
def joinWithSep (sep : Char) : List String → List Char
  | [] => []
  | [p] => p.data
  | p :: ps => p.data ++ sep :: joinWithSep sep ps

/-- A concrete stand-in for Python float conversion in witness evaluations:
only the string `42.5` converts. -/
def pyfloatW : String → Option Unit :=
  fun s => if s = "42.5" then some () else none

/-- The matching concrete stand-in for float formatting. -/
def reprFW : Unit → String := fun _ => "42.5"

/-- A concrete colon-free hash stand-in (hex digests never contain a
colon). -/
def md5W : String → String := fun _ => "9e107d9d372bb6826bd81d3542a419d6"

/-! ## Helper lemmas -/

theorem ne_empty_of_mem_available {env : HashEnv} {alg : String}
    (h : alg ∈ availableHashFuncs env) : alg ≠ "" := by
  intro hemp
  subst hemp
  cases hb : env.sha512_256_available <;> simp [availableHashFuncs, hb] at h

theorem hex8_length_eq_eight {n : Nat} (h : n < 2 ^ 32) : (hex8 n).length = 8 := by
  have hlen : (Nat.toDigits 16 n).length ≤ 8 := by
    have h16 : n < 16 ^ 8 := by
      have : (16 : Nat) ^ 8 = 2 ^ 32 := by norm_num
      omega
    exact Nat.toDigitsCore_length 16 (by norm_num) (n + 1) n 8 h16 (by norm_num)
  simp [hex8, String.length]
  omega

/-- The scheme test, spelled out on character lists. -/
theorem is_digest_credential_iff (s : String) :
    is_digest_credential s = true ↔
      (s.data.take 7).map Char.toLower = "digest ".data := by
  simp [is_digest_credential, pyLower, String.ext_iff]

/-- C1: `calculate_request_digest`, called with the individual parameters or
with a `DigestResponse` carrying them, returns
`hash(partialDigest ":" nonce ":" hex8(nc) ":" clientNonce ":auth:"
hash(method ":" uri))`, where `hex8` zero-pads the lowercase hex nonce count
to 8 digits (`1 ↦ "00000001"`, `255 ↦ "000000ff"`). -/
theorem claim_C1_request_digest_formula (env : HashEnv)
    (method pd uri nonce cn alg : String) (nc : Nat)
    (halg : alg ∈ availableHashFuncs env)
    (huri : uri ≠ "") (hnonce : nonce ≠ "") (hcn : cn ≠ "") :
    (∀ un rl rsp opq qop,
      calculate_request_digest env method pd
        (some ⟨un, rl, nonce, uri, rsp, alg, opq, qop, nc, cn⟩)
        none none none none none =
      Except.ok ((get_hash_func env alg)
        (pd ++ ":" ++ nonce ++ ":" ++ hex8 nc ++ ":" ++ cn ++ ":auth:" ++
          (get_hash_func env alg) (method ++ ":" ++ uri)))) ∧
    calculate_request_digest env method pd none
        (some uri) (some nonce) (some nc) (some cn) (some alg) =
      Except.ok ((get_hash_func env alg)
        (pd ++ ":" ++ nonce ++ ":" ++ hex8 nc ++ ":" ++ cn ++ ":auth:" ++
          (get_hash_func env alg) (method ++ ":" ++ uri))) ∧
    hex8 1 = "00000001" ∧ hex8 255 = "000000ff" ∧
    (nc < 2 ^ 32 → (hex8 nc).length = 8) := by
  have halg2 : alg ≠ "" := ne_empty_of_mem_available halg
  refine ⟨?_, ?_, by decide, by decide, fun h => hex8_length_eq_eight h⟩
  · intro un rl rsp opq qop
    simp [calculate_request_digest, pyTruthyS, pyTruthyN, request_digest_formula, halg2]
    congr 1
    simp [String.ext_iff]
  · simp [calculate_request_digest, pyTruthyS, pyTruthyN, huri, hnonce, hcn,
      request_digest_formula, halg2]
    congr 1
    simp [String.ext_iff]

/-- Witness for C1 at concrete inputs. -/
theorem claim_C1_request_digest_formula_witness :
    calculate_request_digest envW "GET" "pd" none
        (some "/dir/index.html") (some "nn") (some 1) (some "cc") (some "MD5") =
      Except.ok ((get_hash_func envW "MD5")
        ("pd" ++ ":" ++ "nn" ++ ":" ++ hex8 1 ++ ":" ++ "cc" ++ ":auth:" ++
          (get_hash_func envW "MD5") ("GET" ++ ":" ++ "/dir/index.html"))) :=
  (claim_C1_request_digest_formula envW "GET" "pd" "/dir/index.html" "nn" "cc" "MD5" 1
    (by decide) (by decide) (by decide) (by decide)).2.1

/-- C6 as frozen is false on the code: passing a `digest_response` together
with an explicitly supplied `nonce_count` of `0` does not raise, because the
code tests the individual parameters with Python truthiness and `0` is falsy
(source line 102); the call returns an ordinary digest. -/
theorem claim_C6_counterexample :
    calculate_request_digest envW "GET" "pd" (some drW) none none (some 0) none none =
      Except.ok (request_digest_formula envW "GET" "pd"
        drW.uri drW.nonce drW.nc drW.cnonce drW.algorithm) := by
  rfl

/-- C6 amended: `calculate_request_digest` raises exactly when a truthy
`digest_response` is combined with a *truthy* individual parameter (for
strings: non-`None` and non-empty; for the nonce count: non-`None` and
non-zero), or when there is no `digest_response` and not all of `uri`,
`nonce` and `client_nonce` are truthy and `nonce_count` non-`None`; in every
other case it returns a digest without raising. -/
theorem claim_C6_amended_raise_condition (env : HashEnv) (method pd : String)
    (dr : Option DigestResponse) (uri nonce : Option String) (nc : Option Nat)
    (cn alg : Option String) :
    (calculate_request_digest env method pd dr uri nonce nc cn alg).isOk = false ↔
      ((dr.isSome ∧ (pyTruthyS uri = true ∨ pyTruthyS nonce = true ∨
          pyTruthyN nc = true ∨ pyTruthyS cn = true ∨ pyTruthyS alg = true)) ∨
        (dr = none ∧ ¬ (pyTruthyS uri = true ∧ pyTruthyS nonce = true ∧
          nc ≠ none ∧ pyTruthyS cn = true))) := by
  cases dr <;> simp only [calculate_request_digest] <;> split <;>
    simp_all [Except.isOk, Except.toBool]

/-- C9: the scheme tests accept exactly the header values whose first 7
characters, lowercased, are `digest `; they reject any shorter string and
any `Basic ...` header, and the credential and challenge tests agree. -/
theorem claim_C9_scheme_test :
    (∀ s : String,
      (is_digest_credential s = true ↔
        (s.data.take 7).map Char.toLower = "digest ".data) ∧
      is_digest_challenge s = is_digest_credential s ∧
      (s.length < 7 → is_digest_credential s = false)) ∧
    (∀ rest : String, is_digest_credential ("Basic " ++ rest) = false) := by
  constructor
  · intro s
    refine ⟨is_digest_credential_iff s, rfl, fun hlen => ?_⟩
    rw [Bool.eq_false_iff]
    intro htrue
    have h := (is_digest_credential_iff s).mp htrue
    have h7 := congrArg List.length h
    simp [List.length_take] at h7
    omega
  · intro rest
    rw [Bool.eq_false_iff]
    intro htrue
    have h := (is_digest_credential_iff _).mp htrue
    rw [String.data_append] at h
    have hb : "Basic ".data = ['B', 'a', 's', 'i', 'c', ' '] := rfl
    rw [hb] at h
    simp [List.take_append_eq_append_take, List.take_cons, List.take] at h

/-! ## Lemmas about `pySplit` -/

theorem pySplitAux_zero (sep : Char) (cs cur : List Char) :
    pySplitAux sep cs 0 cur = [String.mk (cur.reverse ++ cs)] := by
  induction cs generalizing cur with
  | nil => simp [pySplitAux]
  | cons c rest ih => simp [pySplitAux, ih]

theorem pySplitAux_no_sep (sep : Char) (a rest cur : List Char) (ms : Nat)
    (ha : sep ∉ a) (hms : ms ≠ 0) :
    pySplitAux sep (a ++ sep :: rest) ms cur =
      String.mk (cur.reverse ++ a) :: pySplitAux sep rest (ms - 1) [] := by
  induction a generalizing cur with
  | nil => simp [pySplitAux, hms]
  | cons c a2 ih =>
    simp only [List.mem_cons, not_or] at ha
    have hc : ¬ (c = sep ∧ ms ≠ 0) := by
      intro hco
      exact ha.1 hco.1.symm
    simp only [List.cons_append, pySplitAux, if_neg hc, List.append_eq]
    rw [ih (c :: cur) ha.2]
    simp

theorem pySplit_three (a b c : String) (ha : ':' ∉ a.data) (hb : ':' ∉ b.data) :
    pySplit (a ++ ":" ++ b ++ ":" ++ c) ':' 2 = [a, b, c] := by
  have hdata : (a ++ ":" ++ b ++ ":" ++ c).data =
      a.data ++ ':' :: (b.data ++ ':' :: c.data) := by
    simp [String.data_append]
  unfold pySplit
  rw [hdata, pySplitAux_no_sep _ _ _ _ _ ha (by decide)]
  rw [pySplitAux_no_sep _ _ _ _ _ hb (by decide)]
  rw [pySplitAux_zero]
  rfl

/-! ## Lemmas about `randomHex` -/

theorem mem_randomHex_mem_alphabet {n : Nat} {r : Nat → Fin 16} {c : Char}
    (hc : c ∈ (randomHex n r).data) : c ∈ hexUpperChars := by
  simp [randomHex] at hc
  obtain ⟨i, _, hi⟩ := hc
  have hlt : (r i).val < hexUpperChars.length := by
    have h16 : hexUpperChars.length = 16 := rfl
    rw [h16]
    exact (r i).isLt
  rw [List.getElem?_eq_getElem hlt] at hi
  simp only [Option.getD_some] at hi
  rw [← hi]
  exact List.getElem_mem hlt

theorem colon_not_mem_randomHex (n : Nat) (r : Nat → Fin 16) :
    ':' ∉ (randomHex n r).data := by
  intro h
  have := mem_randomHex_mem_alphabet h
  exact absurd this (by decide)

theorem randomHex_ne_empty (n : Nat) (r : Nat → Fin 16) (hn : n ≠ 0) :
    randomHex n r ≠ "" := by
  intro h
  have := congrArg (fun s => s.data.length) h
  simp [randomHex] at this
  omega

/-- C2: a nonce generated with a (colon-free, e.g. numeric) timestamp and a
secret always validates against the same secret: `validate_nonce` splits it
at the first two colons, recomputes the nonce from the extracted timestamp
and salt, and the recomputation reproduces the input byte-for-byte. -/
theorem claim_C2_nonce_roundtrip (md5 : String → String) (timestamp secret : String)
    (r r2 : Nat → Fin 16) (hts : ':' ∉ timestamp.data) :
    validate_nonce md5
      (calculate_nonce md5 timestamp secret none (randomHex 4 r))
      secret (randomHex 4 r2) = true := by
  have hs1 : ':' ∉ (randomHex 4 r).data := colon_not_mem_randomHex 4 r
  have hs2 : randomHex 4 r ≠ "" := randomHex_ne_empty 4 r (by decide)
  have hnonce : calculate_nonce md5 timestamp secret none (randomHex 4 r) =
      timestamp ++ ":" ++ randomHex 4 r ++ ":" ++
        md5 (timestamp ++ ":" ++ randomHex 4 r ++ ":" ++ secret) := rfl
  rw [validate_nonce, hnonce, pySplit_three _ _ _ hts hs1]
  simp [calculate_nonce, hs2]

/-- Witness for C2 at concrete inputs. -/
theorem claim_C2_nonce_roundtrip_witness :
    validate_nonce envW.md5
      (calculate_nonce envW.md5 "1300000000.25" "mysecret" none (randomHex 4 rW))
      "mysecret" (randomHex 4 rW) = true :=
  claim_C2_nonce_roundtrip envW.md5 "1300000000.25" "mysecret" rW rW (by decide)

/-- C7: extracting the timestamp of a freshly generated nonce returns the
timestamp the nonce was built from (Python float conversion and formatting
are collaborators `pyfloat`/`reprF`, with the exact string round-trip of
floats as a hypothesis); and `get_nonce_timestamp` returns `None` whenever
the input does not split into exactly three colon-delimited parts or its
first part is not a valid decimal number (i.e. `pyfloat` rejects it). -/
theorem claim_C7_timestamp_extraction {F : Type} (pyfloat : String → Option F)
    (reprF : F → String)
    (hround : ∀ t, pyfloat (reprF t) = some t)
    (hcolon : ∀ t, ':' ∉ (reprF t).data)
    (md5 : String → String) (secret : String) (r : Nat → Fin 16) :
    (∀ t : F, get_nonce_timestamp pyfloat
      (calculate_nonce md5 (reprF t) secret none (randomHex 4 r)) = some t) ∧
    (∀ s : String, (pySplit s ':' 2).length ≠ 3 →
      get_nonce_timestamp pyfloat s = none) ∧
    (∀ s p0 p1 p2, pySplit s ':' 2 = [p0, p1, p2] → pyfloat p0 = none →
      get_nonce_timestamp pyfloat s = none) := by
  refine ⟨fun t => ?_, fun s hs => ?_, fun s p0 p1 p2 hsplit hfail => ?_⟩
  · have hnonce : calculate_nonce md5 (reprF t) secret none (randomHex 4 r) =
        reprF t ++ ":" ++ randomHex 4 r ++ ":" ++
          md5 (reprF t ++ ":" ++ randomHex 4 r ++ ":" ++ secret) := rfl
    rw [get_nonce_timestamp, hnonce,
      pySplit_three _ _ _ (hcolon t) (colon_not_mem_randomHex 4 r)]
    simp [hround]
  · simp [get_nonce_timestamp, hs]
  · simp [get_nonce_timestamp, hsplit, hfail]

/-- Witness for C7 at concrete inputs. -/
theorem claim_C7_timestamp_extraction_witness :
    get_nonce_timestamp pyfloatW
      (calculate_nonce envW.md5 (reprFW ()) "sec" none (randomHex 4 rW)) = some () ∧
    get_nonce_timestamp pyfloatW "no-colons-here" = none ∧
    get_nonce_timestamp pyfloatW "abc:D3F9:sig" = none :=
  ⟨(claim_C7_timestamp_extraction pyfloatW reprFW (fun t => by cases t; rfl)
      (fun t => by cases t; decide) envW.md5 "sec" rW).1 (),
   (claim_C7_timestamp_extraction pyfloatW reprFW (fun t => by cases t; rfl)
      (fun t => by cases t; decide) envW.md5 "sec" rW).2.1 "no-colons-here" (by decide),
   (claim_C7_timestamp_extraction pyfloatW reprFW (fun t => by cases t; rfl)
      (fun t => by cases t; decide) envW.md5 "sec" rW).2.2 "abc:D3F9:sig"
      "abc" "D3F9" "sig" (by decide) (by decide)⟩

theorem joinWithSep_cons (sep : Char) (p q : String) (qs : List String) :
    joinWithSep sep (p :: q :: qs) = p.data ++ sep :: joinWithSep sep (q :: qs) := rfl

/-- The full behaviour of `pySplitAux`: re-joining the fields restores the
input, every field but the last is separator-free, and the field count is at
most `maxsplit + 1`. -/
theorem pySplitAux_spec (sep : Char) (cs : List Char) :
    ∀ (ms : Nat) (cur : List Char), (sep ∉ cur ∨ ms = 0) →
      joinWithSep sep (pySplitAux sep cs ms cur) = cur.reverse ++ cs ∧
      (∀ p ∈ (pySplitAux sep cs ms cur).dropLast, sep ∉ p.data) ∧
      (pySplitAux sep cs ms cur).length ≤ ms + 1 ∧
      pySplitAux sep cs ms cur ≠ [] := by
  induction cs with
  | nil =>
    intro ms cur h
    refine ⟨?_, ?_, ?_, ?_⟩ <;> simp [pySplitAux, joinWithSep]
  | cons c cs ih =>
    intro ms cur h
    by_cases hc : c = sep ∧ ms ≠ 0
    · obtain ⟨hjoin, hfree, hlen, hne⟩ := ih (ms - 1) [] (Or.inl (by simp))
      have hms : ms ≠ 0 := hc.2
      have hcur : sep ∉ cur := by
        rcases h with h | h
        · exact h
        · exact absurd h hms
      rw [pySplitAux, if_pos hc]
      obtain ⟨q, qs, hq⟩ := List.exists_cons_of_ne_nil hne
      refine ⟨?_, ?_, ?_, by simp⟩
      · rw [hq, joinWithSep_cons, ← hq, hjoin, hc.1]
        simp
      · intro p hp
        rw [hq, List.dropLast_cons₂] at hp
        rcases List.mem_cons.mp hp with hp | hp
        · subst hp
          simpa using hcur
        · refine hfree p ?_
          rw [hq]
          exact hp
      · simp only [List.length_cons]
        omega
    · have h2 : sep ∉ c :: cur ∨ ms = 0 := by
        rcases Decidable.em (ms = 0) with hms | hms
        · exact Or.inr hms
        · rcases h with h | h
          · left
            intro hmem
            rcases List.mem_cons.mp hmem with hm | hm
            · exact hc ⟨hm.symm, hms⟩
            · exact h hm
          · exact absurd h hms
      obtain ⟨hjoin, hfree, hlen, hne⟩ := ih ms (c :: cur) h2
      rw [pySplitAux, if_neg hc]
      refine ⟨?_, hfree, hlen, hne⟩
      rw [hjoin]
      simp

/-- Splitting decompositions at a separator-free prefix are unique. -/
theorem append_sep_inj (sep : Char) :
    ∀ (a b x y : List Char), sep ∉ a → sep ∉ b →
      a ++ sep :: x = b ++ sep :: y → a = b ∧ x = y := by
  intro a
  induction a with
  | nil =>
    intro b x y _ hb heq
    cases b with
    | nil => simpa using heq
    | cons d b2 =>
      simp only [List.nil_append, List.cons_append, List.cons.injEq] at heq
      rw [heq.1] at hb
      simp at hb
  | cons c a2 ih =>
    intro b x y ha hb heq
    cases b with
    | nil =>
      simp only [List.cons_append, List.nil_append, List.cons.injEq] at heq
      rw [heq.1] at ha
      simp at ha
    | cons d b2 =>
      simp only [List.cons_append, List.cons.injEq] at heq
      have ha2 : sep ∉ a2 := fun hm => ha (List.mem_cons_of_mem c hm)
      have hb2 : sep ∉ b2 := fun hm => hb (List.mem_cons_of_mem d hm)
      obtain ⟨h1, h2⟩ := ih b2 x y ha2 hb2 heq.2
      exact ⟨by rw [heq.1, h1], h2⟩

/-- `validate_nonce` on an input splitting into three parts reduces to the
byte-for-byte comparison with the recomputed nonce. -/
theorem validate_nonce_three (md5 : String → String) (nonce secret fresh : String)
    (p0 p1 p2 : String) (h : pySplit nonce ':' 2 = [p0, p1, p2]) :
    validate_nonce md5 nonce secret fresh =
      decide (nonce = calculate_nonce md5 p0 secret (some p1) fresh) := by
  simp only [validate_nonce, h]
  rw [if_neg (by simp)]
  rfl

/-- C10: a nonce whose salt component is empty (`timestamp::signature`)
never validates, whatever the random choices: `calculate_nonce` replaces an
empty (falsy) salt by a fresh 4-character hex salt, so the recomputed nonce
always carries a non-empty salt and cannot equal the input byte-for-byte.
The hash collaborator returns hex digests, so its output never contains a
colon (`hmd5`). -/
theorem claim_C10_empty_salt_never_validates (md5 : String → String)
    (hmd5 : ∀ s, ':' ∉ (md5 s).data) (t sig secret : String) (r : Nat → Fin 16) :
    validate_nonce md5 (t ++ "::" ++ sig) secret (randomHex 4 r) = false := by
  by_cases hlen : (pySplit (t ++ "::" ++ sig) ':' 2).length = 3
  case neg => simp [validate_nonce, hlen]
  case pos =>
    obtain ⟨p0, p1, p2, hc3⟩ := List.length_eq_three.mp hlen
    obtain ⟨hjoin, hfree, -, -⟩ :=
      pySplitAux_spec ':' (t ++ "::" ++ sig).data 2 [] (Or.inl (by simp))
    have hps : pySplit (t ++ "::" ++ sig) ':' 2 =
        pySplitAux ':' (t ++ "::" ++ sig).data 2 [] := rfl
    have hc3aux : pySplitAux ':' (t ++ "::" ++ sig).data 2 [] = [p0, p1, p2] := by
      rw [← hps]
      exact hc3
    rw [hc3aux] at hjoin hfree
    have hj2 : p0.data ++ ':' :: (p1.data ++ ':' :: p2.data) =
        t.data ++ ':' :: ':' :: sig.data := by
      have hr : joinWithSep ':' [p0, p1, p2] =
          p0.data ++ ':' :: (p1.data ++ ':' :: p2.data) := rfl
      rw [hr] at hjoin
      simpa [String.data_append] using hjoin
    have hp0 : ':' ∉ p0.data := hfree p0 (by simp)
    have hp1 : ':' ∉ p1.data := hfree p1 (by simp)
    rw [validate_nonce_three md5 _ secret _ p0 p1 p2 hc3]
    rw [decide_eq_false_iff_not]
    intro heq
    have hdata := congrArg String.data heq
    by_cases hp1e : p1 = ""
    · have hcd : (calculate_nonce md5 p0 secret (some p1) (randomHex 4 r)).data =
          p0.data ++ ':' :: ((randomHex 4 r).data ++ ':' ::
            (md5 (p0 ++ ":" ++ randomHex 4 r ++ ":" ++ secret)).data) := by
        simp [calculate_nonce, hp1e, String.data_append]
      rw [hcd] at hdata
      have hinput : (t ++ "::" ++ sig).data =
          p0.data ++ ':' :: (p1.data ++ ':' :: p2.data) := by
        rw [hj2]
        simp [String.data_append]
      rw [hinput, hp1e] at hdata
      have htail := List.append_cancel_left hdata
      simp only [List.cons.injEq] at htail
      have htail2 := htail.2
      cases hS : (randomHex 4 r).data with
      | nil =>
        exact randomHex_ne_empty 4 r (by decide) (String.ext hS)
      | cons c cs2 =>
        rw [hS, List.nil_append] at htail2
        have hcchar : ':' = c := by
          have h5 := congrArg (fun l => l.head?) htail2
          simpa using h5
        have : c ∈ hexUpperChars :=
          mem_randomHex_mem_alphabet (hS ▸ List.mem_cons_self c cs2)
        rw [← hcchar] at this
        exact absurd this (by decide)
    · have hcd : (calculate_nonce md5 p0 secret (some p1) (randomHex 4 r)).data =
          p0.data ++ ':' :: (p1.data ++ ':' ::
            (md5 (p0 ++ ":" ++ p1 ++ ":" ++ secret)).data) := by
        simp [calculate_nonce, hp1e, String.data_append]
      rw [hcd] at hdata
      have hinput : (t ++ "::" ++ sig).data =
          p0.data ++ ':' :: (p1.data ++ ':' :: p2.data) := by
        rw [hj2]
        simp [String.data_append]
      rw [hinput] at hdata
      have htail := List.append_cancel_left hdata
      simp only [List.cons.injEq, true_and] at htail
      have htail2 := List.append_cancel_left htail
      simp only [List.cons.injEq, true_and] at htail2
      -- htail2 : p2.data = (md5 ...).data
      have hp2 : ':' ∉ p2.data := by
        rw [htail2]
        exact hmd5 _
      have hcnt := congrArg (List.count ':') hj2
      simp only [List.count_append, List.count_cons] at hcnt
      rw [List.count_eq_zero_of_not_mem hp0, List.count_eq_zero_of_not_mem hp1,
        List.count_eq_zero_of_not_mem hp2] at hcnt
      have hts : ':' ∉ t.data := by
        rw [← List.count_eq_zero]
        simp at hcnt
        omega
      obtain ⟨-, huniq⟩ := append_sep_inj ':' p0.data t.data
        (p1.data ++ ':' :: p2.data) (':' :: sig.data) hp0 hts hj2
      cases hP : p1.data with
      | nil => exact hp1e (String.ext hP)
      | cons c cs2 =>
        rw [hP] at huniq
        simp only [List.cons_append, List.cons.injEq] at huniq
        rw [← huniq.1] at hp1
        rw [hP] at hp1
        simp at hp1

theorem md5W_colon_free : ∀ s, ':' ∉ (md5W s).data := by
  intro s
  show ':' ∉ ("9e107d9d372bb6826bd81d3542a419d6" : String).data
  decide

/-- Witness for C10 at concrete inputs. -/
theorem claim_C10_empty_salt_never_validates_witness :
    validate_nonce md5W ("99.5" ++ "::" ++ "deadbeef") "secret" (randomHex 4 rW) = false :=
  claim_C10_empty_salt_never_validates md5W md5W_colon_free "99.5" "deadbeef" "secret" rW

/-- C3: algorithm handling is strict when parsing but permissive when
computing. A challenge or credential header whose `algorithm` parameter
names an algorithm outside the supported set parses to `None`, while
`calculate_partial_digest` silently falls back to MD5 for any unrecognized
algorithm name. -/
theorem claim_C3_strict_parse_permissive_compute (env : HashEnv) :
    (∀ header parts alg, parse_parts (String.mk (header.data.drop 7))
        [("algorithm", "MD5"), ("stale", "false")] = some parts →
      parts.lookup "algorithm" = some alg → alg ∉ availableHashFuncs env →
      parse_digest_challenge env header = none) ∧
    (∀ s parts alg, parse_parts s [("algorithm", "MD5")] = some parts →
      parts.lookup "algorithm" = some alg → alg ∉ availableHashFuncs env →
      parse_digest_response env s = none) ∧
    (∀ username realm password alg,
      alg ∉ (["SHA-256", "SHA-512-256", "SHA-512"] : List String) →
      calculate_partial_digest env username realm password alg =
        calculate_partial_digest env username realm password "MD5") := by
  refine ⟨fun header parts alg hpp hlook hnot => ?_,
    fun s parts alg hpp hlook hnot => ?_,
    fun username realm password alg hnot => ?_⟩
  · by_cases hd : is_digest_challenge header = true
    · simp only [parse_digest_challenge, hd, hpp]
      by_cases hreq : check_required_parts parts REQUIRED_CHALLENGE_PARTS = true
      · simp [hreq, hlook, hnot]
      · simp [hreq]
    · simp [parse_digest_challenge, hd]
  · simp only [parse_digest_response, hpp]
    by_cases hreq : check_required_parts parts REQUIRED_RESPONSE_PARTS = true
    · simp [hreq, hlook]
      intro h1 h2 halg
      exact absurd halg hnot
    · simp [hreq]
  · simp only [List.mem_cons, not_or] at hnot
    simp [calculate_partial_digest, get_hash_func, hnot.1, hnot.2.1, hnot.2.2]

/-- Witness for C3 at concrete inputs. -/
theorem claim_C3_strict_parse_permissive_compute_witness :
    parse_digest_challenge envW "Digest realm=\"r\", algorithm=SHA-1" = none ∧
    parse_digest_response envW "username=\"u\", algorithm=SHA-1" = none ∧
    calculate_partial_digest envW "u" "r" "p" "SHA-1" =
      calculate_partial_digest envW "u" "r" "p" "MD5" :=
  ⟨(claim_C3_strict_parse_permissive_compute envW).1
      "Digest realm=\"r\", algorithm=SHA-1"
      [("algorithm", "SHA-1"), ("stale", "false"), ("realm", "r")] "SHA-1"
      (by decide) (by decide) (by decide),
   (claim_C3_strict_parse_permissive_compute envW).2.1
      "username=\"u\", algorithm=SHA-1"
      [("algorithm", "SHA-1"), ("username", "u")] "SHA-1"
      (by decide) (by decide) (by decide),
   (claim_C3_strict_parse_permissive_compute envW).2.2 "u" "r" "p" "SHA-1" (by decide)⟩

/-- C8 as frozen is false on the code: the `nc` check (source line 224) only
requires a non-empty all-hex string and has no 8-digit cap, so a credential
whose `nc` is the 9-hex-digit string `000000001` parses successfully (to
nonce count 1) instead of yielding `None`. -/
theorem claim_C8_counterexample :
    parse_digest_response envW
      "username=\"u\", realm=\"r\", nonce=\"n\", uri=\"/\", response=\"x\", opaque=\"o\", qop=auth, nc=000000001, cnonce=\"c\"" =
    some { username := "u", realm := "r", nonce := "n", uri := "/", response := "x",
           algorithm := "MD5", opaque_val := "o", qop := "auth", nc := 1, cnonce := "c" } := by
  rfl

/-- C8 amended: `parse_digest_response` accepts the `nc` field exactly when
it is a non-empty string of hex digits (of any length, there is no 8-digit
cap); an empty or non-hex `nc` yields `None`, and on success the record's
`nc` field is the hex string parsed as an unsigned integer. -/
theorem claim_C8_amended_nc_validation (env : HashEnv) (s : String)
    (parts : List (String × String)) (ncStr : String)
    (hpp : parse_parts s [("algorithm", "MD5")] = some parts)
    (hnc : parts.lookup "nc" = some ncStr) :
    ((ncStr = "" ∨ ¬ ncStr.data.all isHexDigitChar = true) →
      parse_digest_response env s = none) ∧
    (∀ dr, parse_digest_response env s = some dr → dr.nc = hexToNat ncStr) := by
  constructor
  · intro hbad
    simp only [parse_digest_response, hpp, hnc, Option.getD_some]
    by_cases hreq : check_required_parts parts REQUIRED_RESPONSE_PARTS = true
    · rcases hbad with hb | hb
      · simp [hreq, hb]
      · simp [hreq, hb]
    · simp [hreq]
  · intro dr hdr
    simp only [parse_digest_response, hpp, hnc, Option.getD_some] at hdr
    by_cases hreq : check_required_parts parts REQUIRED_RESPONSE_PARTS = true
    · simp only [hreq] at hdr
      simp at hdr
      rw [← hdr.2.2.2]
    · simp [hreq] at hdr

/-- Witness for C8's amended theorem at concrete inputs. -/
theorem claim_C8_amended_nc_validation_witness :
    parse_digest_response envW
      "username=\"u\", realm=\"r\", nonce=\"n\", uri=\"/\", response=\"x\", opaque=\"o\", qop=auth, nc=xyz, cnonce=\"c\"" = none :=
  (claim_C8_amended_nc_validation envW _
    [("algorithm", "MD5"), ("username", "u"), ("realm", "r"), ("nonce", "n"),
     ("uri", "/"), ("response", "x"), ("opaque", "o"), ("qop", "auth"),
     ("nc", "xyz"), ("cnonce", "c")] "xyz" (by decide) (by decide)).1
    (by decide)

/-- C5 as frozen is false on the code: `build_authorization_request` does
not surface a malformed challenge header as an absence result; given a
challenge header string that cannot be parsed it raises (source lines
177-179). -/
theorem claim_C5_counterexample :
    build_authorization_request envW "u" "GET" "/" 1
      (some (ChallengeArg.header "Digest ")) none none none
      (some "pw") none none none rW =
    Except.error "The provided digest challenge header could not be parsed: Digest " := by
  rfl

/-- C5 amended: malformed input (a grammar parse failure, missing required
field, invalid `nc` hex, `qop` other than `auth`, or unsupported algorithm)
is surfaced by the parsing operations as `None`, never as a raised fault;
`build_authorization_request`, however, raises a hard failure when given a
challenge header string that cannot be parsed. -/
theorem claim_C5_amended_absence_results (env : HashEnv) :
    (∀ s, parse_parts s [("algorithm", "MD5")] = none →
      parse_digest_response env s = none) ∧
    (∀ s parts, parse_parts s [("algorithm", "MD5")] = some parts →
      check_required_parts parts REQUIRED_RESPONSE_PARTS = false →
      parse_digest_response env s = none) ∧
    (∀ s parts ncStr, parse_parts s [("algorithm", "MD5")] = some parts →
      parts.lookup "nc" = some ncStr →
      (ncStr = "" ∨ ¬ ncStr.data.all isHexDigitChar = true) →
      parse_digest_response env s = none) ∧
    (∀ s parts q, parse_parts s [("algorithm", "MD5")] = some parts →
      parts.lookup "qop" = some q → q ≠ "auth" →
      parse_digest_response env s = none) ∧
    (∀ s parts alg, parse_parts s [("algorithm", "MD5")] = some parts →
      parts.lookup "algorithm" = some alg → alg ∉ availableHashFuncs env →
      parse_digest_response env s = none) ∧
    (∀ header, parse_parts (String.mk (header.data.drop 7))
        [("algorithm", "MD5"), ("stale", "false")] = none →
      parse_digest_challenge env header = none) ∧
    (∀ header parts q, parse_parts (String.mk (header.data.drop 7))
        [("algorithm", "MD5"), ("stale", "false")] = some parts →
      parts.lookup "qop" = some q → q ≠ "auth" →
      parse_digest_challenge env header = none) ∧
    (∀ username method uri nc header password request_digest client_nonce rc,
      parse_digest_challenge env header = none → header ≠ "" →
      build_authorization_request env username method uri nc
        (some (ChallengeArg.header header)) none none none
        password request_digest client_nonce none rc =
      Except.error ("The provided digest challenge header could not be parsed: " ++ header)) := by
  refine ⟨fun s h => ?_, fun s parts hpp hreq => ?_, fun s parts ncStr hpp hnc hbad => ?_,
    fun s parts q hpp hq hqne => ?_, fun s parts alg hpp hlook hnot => ?_,
    fun header h => ?_, fun header parts q hpp hq hqne => ?_,
    fun username method uri nc header password request_digest client_nonce rc hparse hne => ?_⟩
  · simp [parse_digest_response, h]
  · simp [parse_digest_response, hpp, hreq]
  · simp only [parse_digest_response, hpp, hnc, Option.getD_some]
    by_cases hreq : check_required_parts parts REQUIRED_RESPONSE_PARTS = true
    · rcases hbad with hb | hb
      · simp [hreq, hb]
      · simp [hreq, hb]
    · simp [hreq]
  · by_cases hreq : check_required_parts parts REQUIRED_RESPONSE_PARTS = true
    · simp [parse_digest_response, hpp, hreq, hq]
      intro h1 h2 h3
      exact hqne
    · simp [parse_digest_response, hpp, hreq]
  · by_cases hreq : check_required_parts parts REQUIRED_RESPONSE_PARTS = true
    · simp [parse_digest_response, hpp, hreq, hlook]
      intro h1 h2 halg
      exact absurd halg hnot
    · simp [parse_digest_response, hpp, hreq]
  · by_cases hd : is_digest_challenge header = true
    · simp [parse_digest_challenge, hd, h]
    · simp [parse_digest_challenge, hd]
  · by_cases hd : is_digest_challenge header = true
    · by_cases hreq : check_required_parts parts REQUIRED_CHALLENGE_PARTS = true
      · simp [parse_digest_challenge, hd, hpp, hreq, hq]
        intro h1
        exact hqne
      · simp [parse_digest_challenge, hd, hpp, hreq]
    · simp [parse_digest_challenge, hd]
  · simp [build_authorization_request, pyTruthyChallenge, pyTruthyS, hne, hparse]

/-- Witness for C5's amended theorem at concrete inputs. -/
theorem claim_C5_amended_absence_results_witness :
    parse_digest_response envW "not-a-header" = none ∧
    build_authorization_request envW "u" "GET" "/" 1
        (some (ChallengeArg.header "Digest ")) none none none
        (some "pw") none none none rW =
      Except.error ("The provided digest challenge header could not be parsed: " ++ "Digest ") :=
  ⟨(claim_C5_amended_absence_results envW).1 "not-a-header" (by decide),
   (claim_C5_amended_absence_results envW).2.2.2.2.2.2.2 "u" "GET" "/" 1 "Digest "
     (some "pw") none none rW (by decide) (by decide)⟩

/-! ## Lemmas about the header grammar codec -/

theorem scanState_append (xs ys : List Char) (st : Nat) :
    scanState st (xs ++ ys) = scanState (scanState st xs) ys := by
  simp [scanState, List.foldl_append]

theorem hasTopComma_append (xs : List Char) :
    ∀ (ys : List Char) (st : Nat),
      hasTopComma st (xs ++ ys) =
        (hasTopComma st xs || hasTopComma (scanState st xs) ys) := by
  induction xs with
  | nil => intro ys st; simp [hasTopComma, scanState]
  | cons c xs ih =>
    intro ys st
    simp only [List.cons_append, hasTopComma, List.append_eq, ih, scanState,
      List.foldl_cons, Bool.or_assoc]

theorem splitSegsAux_append (xs : List Char) :
    ∀ (st : Nat) (cur ys : List Char), hasTopComma st xs = false →
      splitSegsAux (xs ++ ys) st cur =
        splitSegsAux ys (scanState st xs) (xs.reverse ++ cur) := by
  induction xs with
  | nil => intro st cur ys h; simp [scanState]
  | cons c xs ih =>
    intro st cur ys h
    simp only [hasTopComma, Bool.or_eq_false_iff, decide_eq_false_iff_not] at h
    simp only [List.cons_append, splitSegsAux, if_neg h.1, List.append_eq]
    rw [ih (stepState st c) (c :: cur) ys h.2]
    simp [scanState]

theorem splitSegsAux_comma (ys cur : List Char) :
    splitSegsAux (',' :: ys) 0 cur = cur.reverse :: splitSegsAux ys 0 [] := by
  simp [splitSegsAux]

theorem scanState_no_quote (cs : List Char) (h : '"' ∉ cs) : scanState 0 cs = 0 := by
  induction cs with
  | nil => rfl
  | cons c cs ih =>
    simp only [List.mem_cons, not_or] at h
    have hc : stepState 0 c = 0 := by
      simp [stepState, Ne.symm h.1]
    simp only [scanState, List.foldl_cons, hc]
    exact ih h.2

theorem hasTopComma_no_comma (cs : List Char) :
    ∀ st, ',' ∉ cs → hasTopComma st cs = false := by
  induction cs with
  | nil => intro st h; rfl
  | cons c cs ih =>
    intro st h
    simp only [List.mem_cons, not_or] at h
    simp only [hasTopComma, Bool.or_eq_false_iff, decide_eq_false_iff_not]
    exact ⟨fun hc => h.1 hc.1.symm, ih _ h.2⟩

theorem escape_scan (v : List Char) :
    scanState 1 (escapeValue v) = 1 ∧ hasTopComma 1 (escapeValue v) = false := by
  induction v with
  | nil => simp [escapeValue, scanState, hasTopComma]
  | cons c v ih =>
    by_cases hc : c = '"' ∨ c = '\\'
    · have h1 : stepState 1 '\\' = 2 := rfl
      have h2 : stepState 2 c = 1 := rfl
      simp only [escapeValue, if_pos hc]
      refine ⟨?_, ?_⟩
      · simp only [scanState, List.foldl_cons, h1, h2]
        exact ih.1
      · simp only [hasTopComma, h1, h2, Bool.or_eq_false_iff,
          decide_eq_false_iff_not]
        exact ⟨by decide, by simp, ih.2⟩
    · push_neg at hc
      have h1 : stepState 1 c = 1 := by
        simp [stepState, hc.1, hc.2]
      simp only [escapeValue, if_neg (show ¬ (c = '"' ∨ c = '\\') by tauto)]
      refine ⟨?_, ?_⟩
      · simp only [scanState, List.foldl_cons, h1]
        exact ih.1
      · simp only [hasTopComma, h1, Bool.or_eq_false_iff,
          decide_eq_false_iff_not]
        exact ⟨by simp, ih.2⟩

theorem format_part_quoted_data (k v : String) (hq : isQuotedKey k = true) :
    (format_part (k, v)).data =
      (k.data ++ ['=', '"']) ++ (escapeValue v.data ++ ['"']) := by
  simp [format_part, hq, String.data_append]

theorem seg_scan_quoted (k v : String) (hq : isQuotedKey k = true)
    (hkq : '"' ∉ k.data) (hkc : ',' ∉ k.data) :
    scanState 0 (format_part (k, v)).data = 0 ∧
    hasTopComma 0 (format_part (k, v)).data = false := by
  have h1 : scanState 0 (k.data ++ ['=', '"']) = 1 := by
    rw [scanState_append, scanState_no_quote _ hkq]
    rfl
  rw [format_part_quoted_data k v hq]
  constructor
  · rw [scanState_append, h1, scanState_append, (escape_scan v.data).1]
    rfl
  · rw [hasTopComma_append, Bool.or_eq_false_iff]
    constructor
    · rw [hasTopComma_append, Bool.or_eq_false_iff]
      exact ⟨hasTopComma_no_comma _ _ hkc,
        hasTopComma_no_comma _ _ (by decide)⟩
    · rw [h1, hasTopComma_append, Bool.or_eq_false_iff]
      exact ⟨(escape_scan v.data).2, hasTopComma_no_comma _ _ (by decide)⟩

theorem splitSegs_format_gen (ps : List (String × String)) :
    ∀ (p : String × String) (cur : List Char),
      (∀ kv ∈ p :: ps, scanState 0 (format_part kv).data = 0 ∧
        hasTopComma 0 (format_part kv).data = false) →
      splitSegsAux (format_parts (p :: ps)).data 0 cur =
        (cur.reverse ++ (format_part p).data) ::
          ps.map (fun q => ' ' :: (format_part q).data) := by
  induction ps with
  | nil =>
    intro p cur h
    have h1 := h p (by simp)
    rw [show format_parts [p] = format_part p from rfl]
    conv_lhs => rw [show (format_part p).data = (format_part p).data ++ [] by simp]
    rw [splitSegsAux_append _ _ _ _ h1.2]
    simp [splitSegsAux]
  | cons q qs ih =>
    intro p cur h
    have hp := h p (by simp)
    have hfmt : format_parts (p :: q :: qs) =
        format_part p ++ ", " ++ format_parts (q :: qs) := rfl
    rw [hfmt]
    have hdata : (format_part p ++ ", " ++ format_parts (q :: qs)).data =
        (format_part p).data ++ (',' :: ' ' :: (format_parts (q :: qs)).data) := by
      simp [String.data_append]
    rw [hdata, splitSegsAux_append _ _ _ _ hp.2, hp.1, splitSegsAux_comma]
    have hsp : splitSegsAux (' ' :: (format_parts (q :: qs)).data) 0 [] =
        splitSegsAux ((format_parts (q :: qs)).data) 0 [' '] := by
      simp only [splitSegsAux, if_neg (show ¬ (' ' = ',' ∧ 0 = 0) by simp)]
      rfl
    rw [hsp, ih q [' '] (fun kv hkv => h kv (List.mem_cons_of_mem p hkv))]
    simp

theorem trimChars_of_ends (c d : Char) (mid : List Char)
    (hc : c.isWhitespace = false) (hd : d.isWhitespace = false) :
    trimChars (c :: (mid ++ [d])) = c :: (mid ++ [d]) := by
  unfold trimChars
  rw [List.dropWhile_cons, if_neg (by simp [hc])]
  rw [show (c :: (mid ++ [d])).reverse = d :: (mid.reverse ++ [c]) by simp]
  rw [List.dropWhile_cons, if_neg (by simp [hd])]
  simp

theorem trimChars_cons_space (cs : List Char) :
    trimChars (' ' :: cs) = trimChars cs := by
  unfold trimChars
  rw [List.dropWhile_cons, if_pos (by decide)]

theorem parseSegment_space (seg : List Char) :
    parseSegment (' ' :: seg) = parseSegment seg := by
  simp only [parseSegment, trimChars_cons_space]

theorem splitFirstEq_append (a b : List Char) (h : '=' ∉ a) :
    splitFirstEq (a ++ '=' :: b) = some (a, b) := by
  induction a with
  | nil => simp [splitFirstEq]
  | cons c a ih =>
    simp only [List.mem_cons, not_or] at h
    have hc : c ≠ '=' := fun hcc => h.1 hcc.symm
    simp [splitFirstEq, hc, ih h.2]

theorem unquote_escape (w : List Char) :
    unquoteValue (escapeValue w ++ ['"']) = some w := by
  induction w with
  | nil => rfl
  | cons c w ih =>
    by_cases hc : c = '"' ∨ c = '\\'
    · simp only [escapeValue, if_pos hc, List.cons_append]
      rw [unquoteValue.eq_def]
      simp [ih]
    · push_neg at hc
      simp only [escapeValue, if_neg (show ¬ (c = '"' ∨ c = '\\') by tauto),
        List.cons_append]
      rw [unquoteValue.eq_def]
      simp [hc.1, hc.2, ih]

theorem parseSegment_quoted (k v : String) (hq : isQuotedKey k = true)
    (hkne : k.data ≠ []) (hkeq : '=' ∉ k.data)
    (hktrim : trimChars k.data = k.data)
    (hkhead : (k.data.headD ' ').isWhitespace = false) :
    parseSegment (format_part (k, v)).data = some (k, v) := by
  obtain ⟨c, krest, hk⟩ := List.exists_cons_of_ne_nil hkne
  have hchead : c.isWhitespace = false := by
    rw [hk] at hkhead
    simpa using hkhead
  have hdata : (format_part (k, v)).data =
      c :: ((krest ++ '=' :: '"' :: escapeValue v.data) ++ ['"']) := by
    rw [format_part_quoted_data k v hq, hk]
    simp
  rw [parseSegment, hdata, trimChars_of_ends _ _ _ hchead (by decide)]
  rw [show c :: ((krest ++ '=' :: '"' :: escapeValue v.data) ++ ['"']) =
      (c :: krest) ++ '=' :: ('"' :: (escapeValue v.data ++ ['"'])) by simp]
  rw [← hk, splitFirstEq_append _ _ hkeq]
  simp only [hktrim]
  rw [if_neg hkne]
  rw [show trimChars ('"' :: (escapeValue v.data ++ ['"'])) =
      '"' :: (escapeValue v.data ++ ['"']) from
    trimChars_of_ends _ _ _ (by decide) (by decide)]
  simp only [unquote_escape]

theorem parseSegments_cons (seg : List Char) (rest : List (List Char))
    (kv : String × String) (kvs : List (String × String))
    (h1 : parseSegment seg = some kv) (h2 : parseSegments rest = some kvs) :
    parseSegments (seg :: rest) = some (kv :: kvs) := by
  simp [parseSegments, h1, h2]

theorem mem_available_cases {env : HashEnv} {alg : String}
    (h : alg ∈ availableHashFuncs env) :
    alg = "MD5" ∨ alg = "SHA-256" ∨ alg = "SHA-512" ∨
      (alg = "SHA-512-256" ∧ env.sha512_256_available = true) := by
  cases hb : env.sha512_256_available <;> simp [availableHashFuncs, hb] at h <;> tauto

theorem parse_parts_of_build (realm nonce opq alg staleStr : String)
    (hsc : scanState 0 (format_part ("algorithm", alg)).data = 0 ∧
      hasTopComma 0 (format_part ("algorithm", alg)).data = false)
    (hss : scanState 0 (format_part ("stale", staleStr)).data = 0 ∧
      hasTopComma 0 (format_part ("stale", staleStr)).data = false)
    (hpa : parseSegment (format_part ("algorithm", alg)).data = some ("algorithm", alg))
    (hpsg : parseSegment (format_part ("stale", staleStr)).data = some ("stale", staleStr)) :
    parse_parts (format_parts [("realm", realm), ("qop", "auth"), ("nonce", nonce),
        ("opaque", opq), ("algorithm", alg), ("stale", staleStr)])
      [("algorithm", "MD5"), ("stale", "false")] =
    some [("algorithm", alg), ("stale", staleStr), ("realm", realm), ("qop", "auth"),
      ("nonce", nonce), ("opaque", opq)] := by
  have hall : ∀ kv ∈ (("realm", realm) :: [("qop", "auth"), ("nonce", nonce),
      ("opaque", opq), ("algorithm", alg), ("stale", staleStr)]),
      scanState 0 (format_part kv).data = 0 ∧
      hasTopComma 0 (format_part kv).data = false := by
    intro kv hkv
    simp only [List.mem_cons, List.not_mem_nil, or_false] at hkv
    rcases hkv with h | h | h | h | h | h <;> subst h
    · exact seg_scan_quoted "realm" realm (by decide) (by decide) (by decide)
    · exact ⟨by decide, by decide⟩
    · exact seg_scan_quoted "nonce" nonce (by decide) (by decide) (by decide)
    · exact seg_scan_quoted "opaque" opq (by decide) (by decide) (by decide)
    · exact hsc
    · exact hss
  rw [parse_parts, splitSegs_format_gen _ _ [] hall]
  have e_realm : parseSegment (format_part ("realm", realm)).data =
      some ("realm", realm) :=
    parseSegment_quoted "realm" realm (by decide) (by decide) (by decide)
      (by decide) (by decide)
  have e_nonce : parseSegment (format_part ("nonce", nonce)).data =
      some ("nonce", nonce) :=
    parseSegment_quoted "nonce" nonce (by decide) (by decide) (by decide)
      (by decide) (by decide)
  have e_opq : parseSegment (format_part ("opaque", opq)).data =
      some ("opaque", opq) :=
    parseSegment_quoted "opaque" opq (by decide) (by decide) (by decide)
      (by decide) (by decide)
  have e_qop : parseSegment (format_part ("qop", "auth")).data =
      some ("qop", "auth") := by decide
  have c6 : parseSegments [' ' :: (format_part ("stale", staleStr)).data] =
      some [("stale", staleStr)] :=
    parseSegments_cons _ _ _ _ (by rw [parseSegment_space]; exact hpsg) rfl
  have c5 : parseSegments (((' ' :: (format_part ("algorithm", alg)).data)) ::
      [' ' :: (format_part ("stale", staleStr)).data]) =
      some [("algorithm", alg), ("stale", staleStr)] :=
    parseSegments_cons _ _ _ _ (by rw [parseSegment_space]; exact hpa) c6
  have c4 : parseSegments ((' ' :: (format_part ("opaque", opq)).data) ::
      (' ' :: (format_part ("algorithm", alg)).data) ::
      [' ' :: (format_part ("stale", staleStr)).data]) =
      some [("opaque", opq), ("algorithm", alg), ("stale", staleStr)] :=
    parseSegments_cons _ _ _ _ (by rw [parseSegment_space]; exact e_opq) c5
  have c3 : parseSegments ((' ' :: (format_part ("nonce", nonce)).data) ::
      (' ' :: (format_part ("opaque", opq)).data) ::
      (' ' :: (format_part ("algorithm", alg)).data) ::
      [' ' :: (format_part ("stale", staleStr)).data]) =
      some [("nonce", nonce), ("opaque", opq), ("algorithm", alg), ("stale", staleStr)] :=
    parseSegments_cons _ _ _ _ (by rw [parseSegment_space]; exact e_nonce) c4
  have c2 : parseSegments ((' ' :: (format_part ("qop", "auth")).data) ::
      (' ' :: (format_part ("nonce", nonce)).data) ::
      (' ' :: (format_part ("opaque", opq)).data) ::
      (' ' :: (format_part ("algorithm", alg)).data) ::
      [' ' :: (format_part ("stale", staleStr)).data]) =
      some [("qop", "auth"), ("nonce", nonce), ("opaque", opq), ("algorithm", alg),
        ("stale", staleStr)] :=
    parseSegments_cons _ _ _ _ (by rw [parseSegment_space]; exact e_qop) c3
  have c1 : parseSegments (((format_part ("realm", realm)).data) ::
      (' ' :: (format_part ("qop", "auth")).data) ::
      (' ' :: (format_part ("nonce", nonce)).data) ::
      (' ' :: (format_part ("opaque", opq)).data) ::
      (' ' :: (format_part ("algorithm", alg)).data) ::
      [' ' :: (format_part ("stale", staleStr)).data]) =
      some [("realm", realm), ("qop", "auth"), ("nonce", nonce), ("opaque", opq),
        ("algorithm", alg), ("stale", staleStr)] :=
    parseSegments_cons _ _ _ _ e_realm c2
  simp only [List.map, List.reverse_nil, List.nil_append]
  rw [c1]
  rfl

theorem parse_digest_challenge_of_parts (env : HashEnv) (fp : String)
    (realm nonce opq alg staleStr : String)
    (hpp : parse_parts fp [("algorithm", "MD5"), ("stale", "false")] =
      some [("algorithm", alg), ("stale", staleStr), ("realm", realm), ("qop", "auth"),
        ("nonce", nonce), ("opaque", opq)])
    (halg : alg ∈ availableHashFuncs env) :
    parse_digest_challenge env ("Digest " ++ fp) =
      some { realm := realm, nonce := nonce,
             stale := decide (pyLower staleStr = "true"),
             algorithm := alg, opaque_val := opq, qop := "auth" } := by
  have hd : is_digest_challenge ("Digest " ++ fp) = true := by
    have h7 : ("Digest " ++ fp).data.take 7 = "Digest ".data := by
      rw [String.data_append,
        show (7 : Nat) = ("Digest " : String).data.length from rfl,
        List.take_left]
    simp [is_digest_challenge, pyLower, h7]
  have hdrop : String.mk (("Digest " ++ fp).data.drop 7) = fp := by
    rw [String.data_append]
    rw [show (7 : Nat) = ("Digest " : String).data.length from rfl]
    rw [List.drop_left]
  rw [parse_digest_challenge, if_neg (by simp [hd]), hdrop, hpp]
  show (if alg ∉ availableHashFuncs env then (none : Option DigestChallenge)
      else some (DigestChallenge.mk realm nonce
        (decide (pyLower staleStr = "true")) alg opq "auth")) =
    some (DigestChallenge.mk realm nonce
      (decide (pyLower staleStr = "true")) alg opq "auth")
  rw [if_neg (by simpa using halg)]

/-- C4: parsing a built challenge recovers the realm, opaque, stale and
algorithm inputs (for any supported algorithm), and the parsed qop is
`auth`; the nonce is the freshly generated one. -/
theorem claim_C4_challenge_roundtrip (env : HashEnv)
    (timestamp secret realm opq alg : String) (stale : Bool) (r : Nat → Fin 16)
    (halg : alg ∈ availableHashFuncs env) :
    ∃ nonce, parse_digest_challenge env
        (build_digest_challenge env timestamp secret realm opq stale alg r) =
      some (DigestChallenge.mk realm nonce stale alg opq "auth") := by
  refine ⟨calculate_nonce env.md5 timestamp secret none (randomHex 4 r), ?_⟩
  simp only [build_digest_challenge]
  rcases mem_available_cases halg with h | h | h | ⟨h, hflag⟩ <;> subst h <;>
    cases stale <;>
    · simp only [show (if (true : Bool) then ("true" : String) else "false") = "true" from rfl,
        show (if (false : Bool) then ("true" : String) else "false") = "false" from rfl] <;>
      rw [parse_digest_challenge_of_parts env _ realm _ opq _ _
        (parse_parts_of_build realm _ opq _ _ (by decide) (by decide) (by decide)
          (by decide)) halg] <;>
      rfl

/-- Witness for C4 at concrete inputs. -/
theorem claim_C4_challenge_roundtrip_witness :
    ∃ nonce, parse_digest_challenge envW
        (build_digest_challenge envW "1300000000.25" "sec" "testrealm@host.com"
          "opq" true "SHA-256" rW) =
      some (DigestChallenge.mk "testrealm@host.com" nonce true "SHA-256" "opq" "auth") :=
  claim_C4_challenge_roundtrip envW "1300000000.25" "sec" "testrealm@host.com"
    "opq" "SHA-256" true rW (by decide)
